import Mathlib

/-!
A shallow embedding of the claim-arbitration core of the coupon
distribution backend (`src/backend/src/controllers/couponController.js`,
`src/backend/src/utils/couponGenerator.js`, the Mongoose models) together
with the client-side time formatter (`formatTime` in the React app).

The MongoDB collections are modelled as Lean lists of records; a Mongo
`findOne` is `List.find?` (first match in natural order), `updateOne` /
`findOneAndUpdate` update the first matching document, and the
`sort: \x7b sequenceNumber: 1 \x7d` option of `findOneAndUpdate` is modelled by
selecting the document whose `sequenceNumber` is minimal among the
matches.  The schema declares `sequenceNumber` and `code` as unique
indexes, so on reachable states these selectors are exact.

`Math.random()`-based code generation is modelled by an ambient stream
`rand : Nat → Nat` of draws (each used modulo the alphabet size, exactly
like `Math.floor(Math.random() * chars.length)`); the system state keeps
a cursor `rng` into the stream.  `insertMany` against the unique `code`
index is modelled all-or-nothing: the batch is inserted when the combined
code list is duplicate-free, otherwise the insert fails and
`generateCoupons` returns `false` (the source logs the error and returns
`false`).

Times are milliseconds since the epoch, as `Nat`; differences of times
(the argument of the formatter) are `Int`, as in JavaScript.
-/

namespace SalesStudio

/-- Cooldown between claims, ms (`CLAIM_COOLDOWN = 30 * 1000`). -/
def CLAIM_COOLDOWN : Nat := 30 * 1000

/-- `CONFIG.MINIMUM_COUPONS` in `couponGenerator.js`. -/
def MINIMUM_COUPONS : Nat := 20

/-- `CONFIG.REPLENISH_COUNT` in `couponGenerator.js`. -/
def REPLENISH_COUNT : Nat := 50

/-!  ## Time formatting  -/

/-- `Math.floor((ms / 1000) % 60)` for an integer `ms`: JavaScript `%` on
reals truncates the quotient, so the value is
`⌊(ms - 60000·trunc(ms/60000)) / 1000⌋ = ⌊(ms tmod 60000) / 1000⌋`. -/
def jsSecondsPart (ms : Int) : Int := (Int.tmod ms 60000).fdiv 1000

/-- `Math.floor((ms / (1000*60)) % 60)` for an integer `ms`. -/
def jsMinutesPart (ms : Int) : Int := (Int.tmod ms 3600000).fdiv 60000

/-- `Math.floor(ms / (1000*60*60))` for an integer `ms`. -/
def jsHoursPart (ms : Int) : Int := ms.fdiv 3600000

/-- The `parts` array built by both formatters: push `"{h}h"`, `"{m}m"`,
`"{s}s"` when the corresponding component is `> 0`. -/
def timeParts (ms : Int) : List String :=
  (if jsHoursPart ms > 0 then [toString (jsHoursPart ms) ++ "h"] else []) ++
  (if jsMinutesPart ms > 0 then [toString (jsMinutesPart ms) ++ "m"] else []) ++
  (if jsSecondsPart ms > 0 then [toString (jsSecondsPart ms) ++ "s"] else [])

/-- Backend `formatTimeRemaining` (couponController.js lines 11–22):
decompose and join with spaces.  There is no guard for non-positive
input. -/
def formatTimeRemaining (ms : Int) : String :=
  String.intercalate " " (timeParts ms)

/-- Frontend `formatTime` (App.jsx): identical decomposition, but guarded
by `if (ms <= 0) return "You can claim now";`. -/
def formatTime (ms : Int) : String :=
  if ms ≤ 0 then "You can claim now"
  else String.intercalate " " (timeParts ms)

/-!  ## Data model  -/

/-- Discriminates the two cooldown tracks; the controller stores the
string `type` field as `'ip'` or `'session'`. -/
inductive TrackerType where
  | ip : TrackerType
  | session : TrackerType
deriving DecidableEq, Repr

instance : BEq TrackerType := ⟨fun a b => decide (a = b)⟩

/-- A raw document in the claim-tracker collection carrying the paths
the controller's queries reference: `identifier`, `type`,
`nextClaimTime`, `lastClaimAt`, `claimCount`.  These paths are NOT
declared by `claimTrackerSchema` (modeled in the schema-layer section
below), and the application's own create is rejected by that schema —
see `tracker_upsert_never_persists` — so documents of this shape reach
the store only from outside the application.  They are nonetheless
expressible states of the schemaless store, and the controller's read
filters pass through to them, which is what the gating behaviour of
`checkEligibility` and `claimCoupon` is conditioned on. -/
structure Tracker where
  identifier : String
  type : TrackerType
  lastClaimAt : Nat
  nextClaimTime : Nat
  claimCount : Nat
deriving DecidableEq, Repr

/-- A `Coupon` document (models/Coupon.js): `code` and `sequenceNumber`
are unique-indexed, `isActive` flags Unclaimed, `claimedBy` holds the
claimant address, `sessionId` the claimant session, `claimedAt` the
claim time. -/
structure Coupon where
  code : String
  sequenceNumber : Nat
  isActive : Bool
  claimedBy : Option String
  sessionId : Option String
  claimedAt : Option Nat
deriving DecidableEq, Repr

/-- The persistent state: the two collections plus the cursor into the
ambient random stream. -/
structure Sys where
  coupons : List Coupon
  trackers : List Tracker
  rng : Nat
deriving DecidableEq, Repr

/-- A claim / eligibility request: caller address (`req.ip`), optional
session cookie (`req.cookies[COOKIE_NAME]`), current time (`new
Date()`). -/
structure Req where
  addr : String
  sessionId : Option String
  now : Nat
deriving DecidableEq, Repr

/-!  ## Store primitives  -/

/-- Update the first element satisfying `p` (Mongo `updateOne` /
`findOneAndUpdate` touch a single document). -/
def updateFirst (p : α → Bool) (f : α → α) : List α → List α
  | [] => []
  | x :: xs => if p x then f x :: xs else x :: updateFirst p f xs

/-- Minimum of a list of naturals, `none` on the empty list. -/
def listMin? : List Nat → Option Nat
  | [] => none
  | x :: xs =>
    match listMin? xs with
    | none => some x
    | some m => some (Nat.min x m)

/-- `countDocuments(\x7b isActive: true \x7d)`. -/
def countActive (cs : List Coupon) : Nat :=
  (cs.filter (fun c => c.isActive)).length

/-- The filter `\x7b isActive: true, claimedBy: null \x7d` used by the claim
reservation and the next-coupon lookup. -/
def couponMatch (c : Coupon) : Bool :=
  c.isActive && c.claimedBy == none

/-- Sequence number of the coupon that would be assigned next: lowest
`sequenceNumber` among documents matching `couponMatch`. -/
def nextSeq? (cs : List Coupon) : Option Nat :=
  listMin? ((cs.filter couponMatch).map (fun c => c.sequenceNumber))

/-- `ClaimTracker.findOne(\x7b identifier, type \x7d)` (no time filter). -/
def findTracker (ts : List Tracker) (id : String) (k : TrackerType) :
    Option Tracker :=
  ts.find? (fun t => t.identifier == id && t.type == k)

/-- `ClaimTracker.findOne(\x7b identifier, type, nextClaimTime: \x7b $gt:
currentTime \x7d \x7d)`: the tracker gates only while its `nextClaimTime` is
strictly in the future. -/
def findActiveTracker (ts : List Tracker) (id : String) (k : TrackerType)
    (now : Nat) : Option Tracker :=
  ts.find? (fun t => t.identifier == id && t.type == k &&
    decide (now < t.nextClaimTime))

/-- The in-place tracker update of `updateTracker`: set `lastClaimAt`
and `nextClaimTime`, `$inc` the `claimCount`. -/
def trackerBump (now : Nat) (t : Tracker) : Tracker :=
  { t with lastClaimAt := now, nextClaimTime := now + CLAIM_COOLDOWN,
           claimCount := t.claimCount + 1 }

/-- The tracker document `updateTracker` attempts to create on first
claim by an identity.  Its real-world counterpart never persists: the
`ClaimTracker` schema strips these paths and its pre-save hook rejects
the stripped document (`tracker_upsert_never_persists`). -/
def freshTracker (id : String) (k : TrackerType) (now : Nat) : Tracker :=
  { identifier := id, type := k, lastClaimAt := now,
    nextClaimTime := now + CLAIM_COOLDOWN, claimCount := 1 }

/-- `updateTracker` (couponController.js lines 25–52) at the
controller's level: look the tracker up by `(identifier, type)`; update
in place when present (set `lastClaimAt`,
`nextClaimTime = now + CLAIM_COOLDOWN`, `$inc claimCount`), otherwise
create it with `claimCount = 1`.  This is the controller's ATTEMPTED
write, modeled as if the store accepted it; against the real
`claimTrackerSchema` the create branch always throws
(`tracker_upsert_never_persists`), so the program never persists these
documents — the schema-layer section below models that faithfully. -/
def updateTracker (id : String) (k : TrackerType) (now : Nat)
    (ts : List Tracker) : List Tracker :=
  match findTracker ts id k with
  | some _ =>
    updateFirst (fun t => t.identifier == id && t.type == k)
      (trackerBump now) ts
  | none => ts ++ [freshTracker id k now]

/-- The mutation applied by the claim reservation
(`findOneAndUpdate` update document): stamp `claimedBy` and `claimedAt`,
clear `isActive`.  Note the source never writes `sessionId` here. -/
def claimStamp (addr : String) (now : Nat) (c : Coupon) : Coupon :=
  { c with claimedBy := some addr, claimedAt := some now, isActive := false }

/-- `Coupon.findOneAndUpdate(\x7b isActive: true, claimedBy: null \x7d, …,
\x7b new: true, sort: \x7b sequenceNumber: 1 \x7d \x7d)`: atomically reserve the
matching document with the lowest `sequenceNumber`; return the updated
document and the updated collection, or `none` leaving the collection
unchanged. -/
def findOneAndUpdateClaim (addr : String) (now : Nat) (cs : List Coupon) :
    Option Coupon × List Coupon :=
  match nextSeq? cs with
  | none => (none, cs)
  | some m =>
    match cs.find? (fun c => couponMatch c && c.sequenceNumber == m) with
    | none => (none, cs)
    | some c =>
      (some (claimStamp addr now c),
       updateFirst (fun x => couponMatch x && x.sequenceNumber == m)
         (claimStamp addr now) cs)

/-!  ## Replenishment Guard (`couponGenerator.js`)  -/

/-- `chars = 'ABCDEFGHIJKLMNOPQRSTUVWXYZ0123456789'`. -/
def chars : List Char := "ABCDEFGHIJKLMNOPQRSTUVWXYZ0123456789".toList

/-- `generateCouponCode`: 8 characters, each
`chars.charAt(Math.floor(Math.random() * chars.length))`; the draws come
from the ambient stream starting at offset `off`. -/
def generateCouponCode (rand : Nat → Nat) (off : Nat) : String :=
  String.mk ((List.range 8).map (fun i => chars.getD (rand (off + i) % 36) 'A'))

/-- Largest `sequenceNumber` in the collection, `0` when empty (helper
for `getNextSequenceNumber`). -/
def maxSeq (cs : List Coupon) : Nat :=
  cs.foldr (fun c m => Nat.max c.sequenceNumber m) 0

/-- `getNextSequenceNumber`: `findOne` sorted by `sequenceNumber`
descending gives the maximum; return it plus one, or `1` when the
collection is empty (`maxSeq [] = 0`). -/
def getNextSequenceNumber (cs : List Coupon) : Nat :=
  maxSeq cs + 1

/-- The batch of fresh coupon documents built by `generateCoupons`:
contiguous sequence numbers from `getNextSequenceNumber`, a random code
each, `isActive: true`. -/
def newBatch (rand : Nat → Nat) (count : Nat) (s : Sys) : List Coupon :=
  (List.range count).map (fun i =>
    { code := generateCouponCode rand (s.rng + 8 * i),
      sequenceNumber := getNextSequenceNumber s.coupons + i,
      isActive := true, claimedBy := none, sessionId := none,
      claimedAt := none : Coupon })

/-- `generateCoupons(count)`: build `count` fresh documents with
contiguous sequence numbers from `getNextSequenceNumber` and random
codes, then `insertMany`.  The unique `code` index makes the insert fail
on a duplicate code; the `catch` then returns `false`.  The fresh
sequence numbers all exceed every existing one, so only codes can
collide.  Deliberate simplification, disclosed: Mongo's ordered
`insertMany` keeps the prefix inserted before the first duplicate,
while this model inserts all-or-nothing; the difference concerns only
collision traces, and every property proved here is either conditioned
on the insert succeeding or independent of the inserted prefix. -/
def generateCoupons (rand : Nat → Nat) (count : Nat) (s : Sys) : Bool × Sys :=
  if ((s.coupons ++ newBatch rand count s).map (fun c => c.code)).Nodup then
    (true, { s with coupons := s.coupons ++ newBatch rand count s,
                    rng := s.rng + 8 * count })
  else
    (false, { s with rng := s.rng + 8 * count })

/-- `checkAndReplenishCoupons`: count Unclaimed coupons; when below
`MINIMUM_COUPONS` call `generateCoupons(REPLENISH_COUNT)` — whose result
is ignored — and return `true`; otherwise return `false`. -/
def checkAndReplenishCoupons (rand : Nat → Nat) (s : Sys) : Bool × Sys :=
  if countActive s.coupons < MINIMUM_COUPONS then
    (true, (generateCoupons rand REPLENISH_COUNT s).2)
  else
    (false, s)

/-!  ## Responses  -/

/-- The three outcomes of `claimCoupon` as the controller serialises
them: success (HTTP 200), cooldown rejection (HTTP 429), exhaustion
(HTTP 404). -/
inductive Resp where
  | success (message : String) (coupon : String) (sequenceNumber : Nat)
      (claimTime : Nat) (nextClaimTime : Nat)
      (cooldownTotal : Nat) (cooldownFormatted : String) : Resp
  | cooldown (message : String) (nextClaimTime : Nat)
      (remainingTotal : Int) (remainingFormatted : String)
      (trackerType : String) : Resp
  | exhausted (message : String) (shouldRetry : Bool) : Resp
deriving DecidableEq, Repr

/-- The eligibility response of `checkEligibility`. -/
structure Elig where
  canClaim : Bool
  remainingTotal : Int
  remainingFormatted : String
  lastClaimAt : Option Nat
  nextClaimTime : Option Nat
  totalClaims : Nat
  trackerType : Option String
  availableCoupons : Nat
  nextSequenceNumber : Option Nat
deriving DecidableEq, Repr

/-!  ## Eligibility Evaluator (`checkEligibility`)  -/

/-- `checkEligibility` (couponController.js lines 202–308): read-only;
look up both gating trackers, count the pool, find the next sequence
number; if neither tracker gates, report `canClaim = true`; otherwise
report the IP tracker when it gates, else the session tracker.  The
source's trailing duplicate `canClaim: true` return is the remaining
(both-`none`) case. -/
def checkEligibility (req : Req) (s : Sys) : Elig :=
  let ipTracker := findActiveTracker s.trackers req.addr .ip req.now
  let sessionTracker :=
    match req.sessionId with
    | some sid => findActiveTracker s.trackers sid .session req.now
    | none => none
  let avail := countActive s.coupons
  let nextNum := nextSeq? s.coupons
  match ipTracker, sessionTracker with
  | none, none =>
    { canClaim := true, remainingTotal := 0,
      remainingFormatted := "You can claim now",
      lastClaimAt := none, nextClaimTime := none, totalClaims := 0,
      trackerType := none, availableCoupons := avail,
      nextSequenceNumber := nextNum }
  | some t, _ =>
    { canClaim := false,
      remainingTotal := (t.nextClaimTime : Int) - (req.now : Int),
      remainingFormatted :=
        formatTimeRemaining ((t.nextClaimTime : Int) - (req.now : Int)),
      lastClaimAt := some t.lastClaimAt,
      nextClaimTime := some t.nextClaimTime,
      totalClaims := t.claimCount, trackerType := some "IP Address",
      availableCoupons := avail, nextSequenceNumber := nextNum }
  | none, some t =>
    { canClaim := false,
      remainingTotal := (t.nextClaimTime : Int) - (req.now : Int),
      remainingFormatted :=
        formatTimeRemaining ((t.nextClaimTime : Int) - (req.now : Int)),
      lastClaimAt := some t.lastClaimAt,
      nextClaimTime := some t.nextClaimTime,
      totalClaims := t.claimCount, trackerType := some "Browser Session",
      availableCoupons := avail, nextSequenceNumber := nextNum }

/-!  ## Claim Arbiter (`claimCoupon`)  -/

/-- The 429 response built from a gating tracker. -/
def cooldownResp (t : Tracker) (now : Nat) (msgTail : String)
    (kind : String) : Resp :=
  let remainingMs := (t.nextClaimTime : Int) - (now : Int)
  Resp.cooldown
    ("Please wait " ++ formatTimeRemaining remainingMs ++ msgTail)
    t.nextClaimTime remainingMs (formatTimeRemaining remainingMs) kind

/-- The 200 response built from a reserved coupon. -/
def successResp (c : Coupon) (now : Nat) : Resp :=
  Resp.success "Coupon claimed successfully!" c.code c.sequenceNumber
    now (now + CLAIM_COOLDOWN) CLAIM_COOLDOWN
    (formatTimeRemaining (CLAIM_COOLDOWN : Int))

/-- Both tracker upserts of the success path:
`Promise.all([updateTracker(ip,'ip',now), sessionId ?
updateTracker(sessionId,'session',now) : null])`. -/
def updateBothTrackers (req : Req) (ts : List Tracker) : List Tracker :=
  let ts1 := updateTracker req.addr .ip req.now ts
  match req.sessionId with
  | some sid => updateTracker sid .session req.now ts1
  | none => ts1

/-- The session cookie minted by the proceed path: `Date.now().toString()`
when the caller presented no session cookie, nothing otherwise. -/
def mintCookie (req : Req) : Option String :=
  match req.sessionId with
  | none => some (toString req.now)
  | some _ => none

/-- The state after the `availableCoupons === 0` pre-replenishment step
(lines 114–118). -/
def preState (rand : Nat → Nat) (s : Sys) : Sys :=
  if countActive s.coupons == 0 then (checkAndReplenishCoupons rand s).2 else s

/-- The state after a successful reservation producing the updated
coupon collection `cs'`, with both tracker upserts applied. -/
def successState (req : Req) (base : Sys) (cs' : List Coupon) : Sys :=
  { base with coupons := cs', trackers := updateBothTrackers req base.trackers }

/-- The part of `claimCoupon` after the cooldown gates (lines 104–191):
mint a session cookie when none was presented, pre-replenish when the
active count is zero, reserve the lowest-sequence Unclaimed coupon,
on failure replenish and retry exactly once, on success upsert the
trackers; returns (response, cookie set on the response, new state). -/
def claimProceed (rand : Nat → Nat) (req : Req) (s : Sys) :
    Resp × Option String × Sys :=
  let s1 := preState rand s
  match findOneAndUpdateClaim req.addr req.now s1.coupons with
  | (some c, cs') =>
    (successResp c req.now, mintCookie req, successState req s1 cs')
  | (none, _) =>
    let s2 := (checkAndReplenishCoupons rand s1).2
    match findOneAndUpdateClaim req.addr req.now s2.coupons with
    | (some c, cs') =>
      (successResp c req.now, mintCookie req, successState req s2 cs')
    | (none, _) =>
      (Resp.exhausted "No coupons available. Please try again later." false,
       mintCookie req, s2)

/-- `claimCoupon` (couponController.js lines 56–199).  The IP cooldown is
checked first; the session cooldown is consulted only when the IP gate is
clear (`if (!ipTracker && sessionId) … else if (ipTracker) …`).  A
rejection returns before the cookie-minting statement, so no cookie is
set on the 429 path.  The tracker-upsert step of the success path is
modeled as succeeding; in the program the `ClaimTracker` schema rejects
the create (`tracker_upsert_never_persists`) and the request errors out
after the coupon is already reserved — the rejection path, the
exhaustion path and all coupon-side effects are unaffected by that
divergence. -/
def claimCoupon (rand : Nat → Nat) (req : Req) (s : Sys) :
    Resp × Option String × Sys :=
  match findActiveTracker s.trackers req.addr .ip req.now with
  | some t =>
    (cooldownResp t req.now
      " before claiming another coupon from this IP." "IP Address",
     none, s)
  | none =>
    match req.sessionId with
    | some sid =>
      match findActiveTracker s.trackers sid .session req.now with
      | some t =>
        (cooldownResp t req.now
          " before claiming another coupon in this browser."
          "Browser Session", none, s)
      | none => claimProceed rand req s
    | none => claimProceed rand req s

/-- Serialized traces: run a list of claim requests one after the other,
collecting the responses (used for the system-wide ordering guarantee). -/
def runClaims (rand : Nat → Nat) : List Req → Sys → List Resp × Sys
  | [], s => ([], s)
  | r :: rs, s =>
    let step := claimCoupon rand r s
    let rest := runClaims rand rs step.2.2
    (step.1 :: rest.1, rest.2)

/-- Sequence numbers of the successful responses, in call order. -/
def successSeqs (rs : List Resp) : List Nat :=
  rs.filterMap (fun r =>
    match r with
    | Resp.success _ _ n _ _ _ _ => some n
    | _ => none)

/-- Coupon codes of the successful responses, in call order. -/
def successCodes (rs : List Resp) : List String :=
  rs.filterMap (fun r =>
    match r with
    | Resp.success _ code _ _ _ _ _ => some code
    | _ => none)

/-!  ## General lemmas  -/

theorem tmod_nonpos_of_nonpos (a b : Int) (ha : a ≤ 0) : a.tmod b ≤ 0 := by
  have hrep : a = -(-a) := by ring
  have hneg : (-(-a)).tmod b = -((-a).tmod b) := by
    rw [Int.tmod_def, Int.tmod_def, Int.neg_tdiv]; ring
  have hnn : 0 ≤ (-a).tmod b := Int.tmod_nonneg b (by omega)
  calc a.tmod b = (-(-a)).tmod b := by rw [← hrep]
    _ = -((-a).tmod b) := hneg
    _ ≤ 0 := by omega

theorem fdiv_nonpos_of_nonpos (a b : Int) (ha : a ≤ 0) (hb : 0 < b) :
    a.fdiv b ≤ 0 := by
  rw [Int.fdiv_eq_ediv a (le_of_lt hb)]
  have h := Int.ediv_le_ediv hb ha
  simpa using h

theorem timeParts_nil_of_nonpos (ms : Int) (h : ms ≤ 0) : timeParts ms = [] := by
  have hh : ¬ jsHoursPart ms > 0 := by
    have := fdiv_nonpos_of_nonpos ms 3600000 h (by norm_num)
    simp only [jsHoursPart]; omega
  have hm : ¬ jsMinutesPart ms > 0 := by
    have h1 : Int.tmod ms 3600000 ≤ 0 := tmod_nonpos_of_nonpos ms 3600000 h
    have := fdiv_nonpos_of_nonpos (Int.tmod ms 3600000) 60000 h1 (by norm_num)
    simp only [jsMinutesPart]; omega
  have hs : ¬ jsSecondsPart ms > 0 := by
    have h1 : Int.tmod ms 60000 ≤ 0 := tmod_nonpos_of_nonpos ms 60000 h
    have := fdiv_nonpos_of_nonpos (Int.tmod ms 60000) 1000 h1 (by norm_num)
    simp only [jsSecondsPart]; omega
  simp [timeParts, hh, hm, hs]

/-- C3 counterexample input: the backend formatter at `0` yields the
empty string, not the "claim now" sentinel the claim requires for every
non-positive input. -/
theorem formatTimeRemaining_zero_empty :
    formatTimeRemaining 0 = "" ∧ formatTimeRemaining 0 ≠ "You can claim now" := by
  refine ⟨?_, ?_⟩ <;> decide

/-- C3 (amended): both formatters decompose milliseconds by non-carrying
division/modulo and join the non-zero components with spaces
(`formatTime 90000 = "1m 30s"`, `formatTime 3661000 = "1h 1m 1s"`, and
the same for the backend `formatTimeRemaining`); for every input ≤ 0 the
frontend `formatTime` returns the fixed "You can claim now" sentinel,
while the backend `formatTimeRemaining` returns the empty string (it has
no non-positive guard). -/
theorem formatter_spec :
    (∀ ms : Int, ms ≤ 0 →
      formatTime ms = "You can claim now" ∧ formatTimeRemaining ms = "") ∧
    formatTime 90000 = "1m 30s" ∧ formatTime 3661000 = "1h 1m 1s" ∧
    formatTimeRemaining 90000 = "1m 30s" ∧
    formatTimeRemaining 3661000 = "1h 1m 1s" := by
  refine ⟨fun ms h => ⟨?_, ?_⟩, by decide, by decide, by decide, by decide⟩
  · simp [formatTime, h]
  · rw [formatTimeRemaining, timeParts_nil_of_nonpos ms h]; rfl

/-- Witness for `formatter_spec` at `ms = -7`. -/
theorem formatter_spec_witness :
    formatTime (-7) = "You can claim now" ∧ formatTimeRemaining (-7) = "" :=
  formatter_spec.1 (-7) (by decide)

/-- C10: `checkAndReplenishCoupons` answers `true` exactly when the
count of Unclaimed coupons is below the floor, no matter whether the
generation/insertion succeeded; in particular on a state where every
generated code collides (constant random stream) `generateCoupons`
returns `false` yet `checkAndReplenishCoupons` still returns `true`. -/
theorem checkAndReplenish_true_iff_low :
    (∀ (rand : Nat → Nat) (s : Sys),
      (checkAndReplenishCoupons rand s).1 =
        decide (countActive s.coupons < MINIMUM_COUPONS)) ∧
    (generateCoupons (fun _ => 0) REPLENISH_COUNT
        { coupons := [], trackers := [], rng := 0 }).1 = false ∧
    (checkAndReplenishCoupons (fun _ => 0)
        { coupons := [], trackers := [], rng := 0 }).1 = true := by
  refine ⟨fun rand s => ?_, by decide, by decide⟩
  by_cases h : countActive s.coupons < MINIMUM_COUPONS <;>
    simp [checkAndReplenishCoupons, h]

theorem listMin?_eq_none : ∀ {l : List Nat}, listMin? l = none ↔ l = [] := by
  intro l
  cases l with
  | nil => simp [listMin?]
  | cons x xs =>
    simp only [listMin?]
    cases listMin? xs <;> simp

theorem listMin?_mem {l : List Nat} {m : Nat} (h : listMin? l = some m) :
    m ∈ l := by
  induction l generalizing m with
  | nil => simp [listMin?] at h
  | cons x xs ih =>
    simp only [listMin?] at h
    cases hx : listMin? xs with
    | none => rw [hx] at h; simp only [Option.some.injEq] at h; simp [← h]
    | some k =>
      rw [hx] at h
      simp only [Option.some.injEq] at h
      have h' : m = x ∨ m = k := by
        rcases min_cases x k with ⟨h1, _⟩ | ⟨h1, _⟩ <;> simp [Nat.min] at h <;> omega
      rcases h' with hm | hm
      · simp [hm]
      · exact List.mem_cons_of_mem x (ih (hm ▸ hx))

theorem listMin?_le {l : List Nat} {m : Nat} (h : listMin? l = some m) :
    ∀ x ∈ l, m ≤ x := by
  induction l generalizing m with
  | nil => simp
  | cons x xs ih =>
    intro y hy
    simp only [listMin?] at h
    cases hx : listMin? xs with
    | none =>
      rw [hx] at h
      have hnil : xs = [] := listMin?_eq_none.mp hx
      simp only [Option.some.injEq] at h
      subst hnil
      simp only [List.mem_singleton] at hy
      omega
    | some k =>
      rw [hx] at h
      simp only [Option.some.injEq] at h
      have hmin : m ≤ x ∧ m ≤ k := by
        have h1 := Nat.min_le_left x k
        have h2 := Nat.min_le_right x k
        rcases min_cases x k with ⟨h3, _⟩ | ⟨h3, _⟩ <;> simp [Nat.min] at h <;> omega
      rcases List.mem_cons.mp hy with hxy | hmem
      · subst hxy; exact hmin.1
      · exact le_trans hmin.2 (ih hx y hmem)

theorem find?_decomp {α : Type} {p : α → Bool} {l : List α} {y : α}
    (h : l.find? p = some y) :
    ∃ l1 l2, l = l1 ++ y :: l2 ∧ (∀ z ∈ l1, p z = false) ∧ p y = true := by
  induction l with
  | nil => simp [List.find?] at h
  | cons x xs ih =>
    rw [List.find?] at h
    cases hp : p x with
    | true =>
      rw [hp] at h
      simp only [Option.some.injEq] at h
      exact ⟨[], xs, by simp [← h], by simp, h ▸ hp⟩
    | false =>
      rw [hp] at h
      obtain ⟨l1, l2, heq, hall, hy⟩ := ih h
      exact ⟨x :: l1, l2, by simp [heq], by
        intro z hz
        rcases List.mem_cons.mp hz with rfl | hz'
        · exact hp
        · exact hall z hz', hy⟩

theorem updateFirst_of_decomp {α : Type} (p : α → Bool) (f : α → α)
    (l1 l2 : List α) (y : α) (h1 : ∀ z ∈ l1, p z = false)
    (hy : p y = true) :
    updateFirst p f (l1 ++ y :: l2) = l1 ++ f y :: l2 := by
  induction l1 with
  | nil => simp [updateFirst, hy]
  | cons z zs ih =>
    have hz : p z = false := h1 z (by simp)
    simp only [List.cons_append, updateFirst, hz]
    simp only [Bool.false_eq_true, if_false, List.cons.injEq, true_and]
    exact ih (fun w hw => h1 w (by simp [hw]))

theorem mem_updateFirst {α : Type} {p : α → Bool} {f : α → α} {l : List α}
    {x : α} (h : x ∈ updateFirst p f l) :
    x ∈ l ∨ ∃ y, y ∈ l ∧ p y = true ∧ x = f y := by
  induction l with
  | nil => simp [updateFirst] at h
  | cons z zs ih =>
    simp only [updateFirst] at h
    by_cases hz : p z
    · rw [if_pos hz] at h
      rcases List.mem_cons.mp h with rfl | hmem
      · exact Or.inr ⟨z, by simp, hz, rfl⟩
      · exact Or.inl (by simp [hmem])
    · rw [if_neg hz] at h
      rcases List.mem_cons.mp h with rfl | hmem
      · exact Or.inl (by simp)
      · rcases ih hmem with h' | ⟨y, hy, hpy, hxy⟩
        · exact Or.inl (by simp [h'])
        · exact Or.inr ⟨y, by simp [hy], hpy, hxy⟩

theorem find?_append_of_none {α : Type} {q : α → Bool} {l1 : List α}
    (l2 : List α) (h : l1.find? q = none) :
    (l1 ++ l2).find? q = l2.find? q := by
  induction l1 with
  | nil => simp
  | cons x xs ih =>
    rw [List.find?] at h
    cases hx : q x with
    | true => rw [hx] at h; simp at h
    | false =>
      rw [hx] at h
      simpa [List.find?, hx] using ih h

theorem maxSeq_ge {cs : List Coupon} : ∀ c ∈ cs, c.sequenceNumber ≤ maxSeq cs := by
  induction cs with
  | nil => simp
  | cons x xs ih =>
    intro c hc
    rcases List.mem_cons.mp hc with rfl | hmem
    · simp only [maxSeq, List.foldr]
      exact Nat.le_max_left _ _
    · have := ih c hmem
      simp only [maxSeq, List.foldr] at this ⊢
      exact le_trans this (Nat.le_max_right _ _)

/-!  ## C1 : which gate wins  -/

/-- The dual-gate scenario: the address tracker has 5000 ms remaining
and the session tracker 10000 ms at `now = 100`. -/
def dualGateIp : Tracker :=
  { identifier := "1.2.3.4", type := .ip, lastClaimAt := 100,
    nextClaimTime := 5100, claimCount := 1 }

/-- Session-kind tracker of the dual-gate scenario. -/
def dualGateSession : Tracker :=
  { identifier := "s1", type := .session, lastClaimAt := 100,
    nextClaimTime := 10100, claimCount := 1 }

/-- State holding both dual-gate trackers. -/
def dualGateSys : Sys :=
  { coupons := [], trackers := [dualGateIp, dualGateSession], rng := 0 }

/-- Request of the dual-gate scenario. -/
def dualGateReq : Req :=
  { addr := "1.2.3.4", sessionId := some "s1", now := 100 }

/-- C1 counterexample: with both trackers in positive cooldown (address
remaining 5000 ms, session remaining 10000 ms), `checkEligibility` and
`claimCoupon` report the ADDRESS gate with remaining 5000 — not
`max(addressRemaining, sessionRemaining) = 10000` and not the Session
kind that produced the maximum. -/
theorem eligibility_not_max_gate_cex :
    findActiveTracker dualGateSys.trackers dualGateReq.addr .ip
        dualGateReq.now = some dualGateIp ∧
    findActiveTracker dualGateSys.trackers "s1" .session
        dualGateReq.now = some dualGateSession ∧
    (dualGateIp.nextClaimTime : Int) - (dualGateReq.now : Int) = 5000 ∧
    (dualGateSession.nextClaimTime : Int) - (dualGateReq.now : Int) = 10000 ∧
    (checkEligibility dualGateReq dualGateSys).canClaim = false ∧
    (checkEligibility dualGateReq dualGateSys).remainingTotal = 5000 ∧
    (checkEligibility dualGateReq dualGateSys).remainingTotal ≠
      max (5000 : Int) 10000 ∧
    (checkEligibility dualGateReq dualGateSys).trackerType =
      some "IP Address" ∧
    (checkEligibility dualGateReq dualGateSys).trackerType ≠
      some "Browser Session" ∧
    (claimCoupon (fun n => n) dualGateReq dualGateSys).1 =
      Resp.cooldown "Please wait 5s before claiming another coupon from this IP."
        5100 5000 "5s" "IP Address" := by
  refine ⟨?_, ?_, ?_, ?_, ?_, ?_, ?_, ?_, ?_, ?_⟩ <;> decide

/-- C1 (amended): whenever the address tracker gates (positive remaining
time), both `checkEligibility` and the re-check at the start of
`claimCoupon` report `canClaim = false` with the ADDRESS tracker's
remaining time and the Address kind, regardless of the session tracker —
even when the session tracker's remaining time is larger.  The session
gate is consulted only when the address gate is clear. -/
theorem eligibility_address_gate_priority (rand : Nat → Nat) (req : Req)
    (s : Sys) (t t' : Tracker) (sid : String)
    (hsid : req.sessionId = some sid)
    (hip : findActiveTracker s.trackers req.addr .ip req.now = some t)
    (_hsess : findActiveTracker s.trackers sid .session req.now = some t') :
    (checkEligibility req s).canClaim = false ∧
    (checkEligibility req s).remainingTotal =
      (t.nextClaimTime : Int) - (req.now : Int) ∧
    (checkEligibility req s).trackerType = some "IP Address" ∧
    (claimCoupon rand req s).1 =
      cooldownResp t req.now
        " before claiming another coupon from this IP." "IP Address" ∧
    (claimCoupon rand req s).2.2 = s := by
  refine ⟨?_, ?_, ?_, ?_, ?_⟩ <;> simp [checkEligibility, claimCoupon, hip, hsid]

/-- Witness for `eligibility_address_gate_priority` on the dual-gate
scenario (session remaining strictly larger than address remaining). -/
theorem eligibility_address_gate_priority_witness :
    (checkEligibility dualGateReq dualGateSys).canClaim = false ∧
    (checkEligibility dualGateReq dualGateSys).remainingTotal =
      (dualGateIp.nextClaimTime : Int) - (dualGateReq.now : Int) ∧
    (checkEligibility dualGateReq dualGateSys).trackerType =
      some "IP Address" ∧
    (claimCoupon (fun n => n) dualGateReq dualGateSys).1 =
      cooldownResp dualGateIp dualGateReq.now
        " before claiming another coupon from this IP." "IP Address" ∧
    (claimCoupon (fun n => n) dualGateReq dualGateSys).2.2 = dualGateSys :=
  eligibility_address_gate_priority (fun n => n) dualGateReq dualGateSys
    dualGateIp dualGateSession "s1" rfl (by decide) (by decide)

/-!  ## Shape of `claimProceed` results  -/

theorem claimProceed_cases (rand : Nat → Nat) (req : Req) (s : Sys) :
    (∃ c cs', findOneAndUpdateClaim req.addr req.now (preState rand s).coupons
        = (some c, cs') ∧
      claimProceed rand req s = (successResp c req.now, mintCookie req,
        successState req (preState rand s) cs')) ∨
    (∃ c cs',
      (findOneAndUpdateClaim req.addr req.now (preState rand s).coupons).1
        = none ∧
      findOneAndUpdateClaim req.addr req.now
          ((checkAndReplenishCoupons rand (preState rand s)).2).coupons
        = (some c, cs') ∧
      claimProceed rand req s = (successResp c req.now, mintCookie req,
        successState req ((checkAndReplenishCoupons rand (preState rand s)).2) cs')) ∨
    ((findOneAndUpdateClaim req.addr req.now (preState rand s).coupons).1
        = none ∧
      (findOneAndUpdateClaim req.addr req.now
          ((checkAndReplenishCoupons rand (preState rand s)).2).coupons).1
        = none ∧
      claimProceed rand req s =
        (Resp.exhausted "No coupons available. Please try again later." false,
         mintCookie req, (checkAndReplenishCoupons rand (preState rand s)).2)) := by
  cases h1 : findOneAndUpdateClaim req.addr req.now (preState rand s).coupons with
  | mk oc cs =>
    cases oc with
    | some c => exact Or.inl ⟨c, cs, rfl, by simp [claimProceed, h1]⟩
    | none =>
      cases h2 : findOneAndUpdateClaim req.addr req.now
          ((checkAndReplenishCoupons rand (preState rand s)).2).coupons with
      | mk oc2 cs2 =>
        cases oc2 with
        | some c =>
          exact Or.inr (Or.inl ⟨c, cs2, rfl, rfl,
            by simp [claimProceed, h1, h2]⟩)
        | none =>
          exact Or.inr (Or.inr ⟨rfl, rfl,
            by simp [claimProceed, h1, h2]⟩)

theorem claimProceed_not_cooldown (rand : Nat → Nat) (req : Req) (s : Sys)
    (msg : String) (nct : Nat) (rem : Int) (fmt tt : String) :
    (claimProceed rand req s).1 ≠ Resp.cooldown msg nct rem fmt tt := by
  rcases claimProceed_cases rand req s with
    ⟨c, cs', _, heq⟩ | ⟨c, cs', _, _, heq⟩ | ⟨_, _, heq⟩ <;>
    rw [heq] <;> simp [successResp]

/-- C6: whenever `claimCoupon` returns a cooldown rejection (HTTP 429),
the state is returned unchanged — no coupon document and no tracker
document is created or mutated — and no cookie is set on the response
(the source mints the session cookie only after the gates pass, so even
the allowed "new session token" side effect does not occur); the
rejection carries the gating kind, the gating tracker's `nextClaimTime`,
and the formatted remaining time, which is positive. -/
theorem claim_rejection_side_effect_free (rand : Nat → Nat) (req : Req)
    (s : Sys) (msg : String) (nct : Nat) (rem : Int) (fmt tt : String)
    (h : (claimCoupon rand req s).1 = Resp.cooldown msg nct rem fmt tt) :
    (claimCoupon rand req s).2.2 = s ∧
    (claimCoupon rand req s).2.1 = none ∧
    rem = (nct : Int) - (req.now : Int) ∧
    0 < rem ∧
    fmt = formatTimeRemaining rem ∧
    (tt = "IP Address" ∨ tt = "Browser Session") := by
  cases hip : findActiveTracker s.trackers req.addr .ip req.now with
  | some t =>
    have hpred := List.find?_some hip
    simp only [Bool.and_eq_true, decide_eq_true_eq] at hpred
    simp only [claimCoupon, hip] at h ⊢
    simp only [cooldownResp, Resp.cooldown.injEq] at h
    obtain ⟨hmsg, hnct, hrem, hfmt, htt⟩ := h
    refine ⟨by trivial, by trivial, ?_, ?_, ?_, Or.inl htt.symm⟩
    · omega
    · omega
    · rw [← hfmt, ← hrem]
  | none =>
    cases hsid : req.sessionId with
    | some sid =>
      cases hses : findActiveTracker s.trackers sid .session req.now with
      | some t =>
        have hpred := List.find?_some hses
        simp only [Bool.and_eq_true, decide_eq_true_eq] at hpred
        simp only [claimCoupon, hip, hsid, hses] at h ⊢
        simp only [cooldownResp, Resp.cooldown.injEq] at h
        obtain ⟨hmsg, hnct, hrem, hfmt, htt⟩ := h
        refine ⟨by trivial, by trivial, ?_, ?_, ?_, Or.inr htt.symm⟩
        · omega
        · omega
        · rw [← hfmt, ← hrem]
      | none =>
        simp only [claimCoupon, hip, hsid, hses] at h
        exact absurd h (claimProceed_not_cooldown rand req s msg nct rem fmt tt)
    | none =>
      simp only [claimCoupon, hip, hsid] at h
      exact absurd h (claimProceed_not_cooldown rand req s msg nct rem fmt tt)

/-- Witness for `claim_rejection_side_effect_free` on the dual-gate
scenario. -/
theorem claim_rejection_side_effect_free_witness :
    (claimCoupon (fun n => n) dualGateReq dualGateSys).2.2 = dualGateSys ∧
    (claimCoupon (fun n => n) dualGateReq dualGateSys).2.1 = none ∧
    (5000 : Int) = ((5100 : Nat) : Int) - ((dualGateReq.now : Nat) : Int) ∧
    (0 : Int) < 5000 ∧
    "5s" = formatTimeRemaining 5000 ∧
    ("IP Address" = "IP Address" ∨ "IP Address" = "Browser Session") :=
  claim_rejection_side_effect_free (fun n => n) dualGateReq dualGateSys
    "Please wait 5s before claiming another coupon from this IP."
    5100 5000 "5s" "IP Address" (by decide)

/-!  ## Characterizing the atomic reservation  -/

theorem findOneAndUpdateClaim_some {addr : String} {now : Nat}
    {cs : List Coupon} {c' : Coupon} {cs' : List Coupon}
    (h : findOneAndUpdateClaim addr now cs = (some c', cs')) :
    ∃ c l1 l2, cs = l1 ++ c :: l2 ∧
      couponMatch c = true ∧
      (∀ x ∈ cs, couponMatch x = true → c.sequenceNumber ≤ x.sequenceNumber) ∧
      c' = claimStamp addr now c ∧
      cs' = l1 ++ claimStamp addr now c :: l2 := by
  unfold findOneAndUpdateClaim at h
  split at h
  · simp at h
  · rename_i m hm
    split at h
    · simp at h
    · rename_i c hf
      simp only [Prod.mk.injEq, Option.some.injEq] at h
      obtain ⟨hc', hcs'⟩ := h
      obtain ⟨l1, l2, hsplit, hl1, hpc⟩ := find?_decomp hf
      have hpc' := hpc
      simp only [Bool.and_eq_true, beq_iff_eq] at hpc'
      refine ⟨c, l1, l2, hsplit, hpc'.1, ?_, hc'.symm, ?_⟩
      · intro x hx hmx
        have hxm : x.sequenceNumber ∈
            (cs.filter couponMatch).map (fun c => c.sequenceNumber) :=
          List.mem_map_of_mem _ (List.mem_filter.mpr ⟨hx, hmx⟩)
        have := listMin?_le hm x.sequenceNumber hxm
        omega
      · rw [← hcs', hsplit]
        exact updateFirst_of_decomp _ _ l1 l2 c hl1 hpc

theorem findOneAndUpdateClaim_none {addr : String} {now : Nat}
    {cs : List Coupon}
    (h : (findOneAndUpdateClaim addr now cs).1 = none) :
    findOneAndUpdateClaim addr now cs = (none, cs) ∧
    ∀ x ∈ cs, couponMatch x = false := by
  cases hm : nextSeq? cs with
  | none =>
    have hnil : (cs.filter couponMatch).map (fun c => c.sequenceNumber) = [] := by
      have := listMin?_eq_none.mp hm
      simpa [nextSeq?] using this
    have hfil : cs.filter couponMatch = [] :=
      List.map_eq_nil_iff.mp hnil
    refine ⟨by unfold findOneAndUpdateClaim; rw [hm], fun x hx => ?_⟩
    by_contra hcm
    have : x ∈ cs.filter couponMatch :=
      List.mem_filter.mpr ⟨hx, by revert hcm; cases couponMatch x <;> simp⟩
    rw [hfil] at this
    simp at this
  | some m =>
    have hred : findOneAndUpdateClaim addr now cs =
        (match cs.find? (fun c => couponMatch c && c.sequenceNumber == m) with
         | none => (none, cs)
         | some c =>
           (some (claimStamp addr now c),
            updateFirst (fun x => couponMatch x && x.sequenceNumber == m)
              (claimStamp addr now) cs)) := by
      unfold findOneAndUpdateClaim; rw [hm]
    have hmem := listMin?_mem (by simpa [nextSeq?] using hm)
    obtain ⟨x, hxmem, hxseq⟩ := List.mem_map.mp hmem
    have hxf := List.mem_filter.mp hxmem
    cases hf : cs.find? (fun c => couponMatch c && c.sequenceNumber == m) with
    | none =>
      have hall := List.find?_eq_none.mp hf x hxf.1
      simp only [Bool.and_eq_true, beq_iff_eq] at hall
      exact absurd ⟨hxf.2, hxseq⟩ hall
    | some c =>
      rw [hred, hf] at h
      simp at h

/-!  ## C7 : exhaustion after one replenish-and-retry  -/

/-- C7: if the first atomic reservation inside `claimCoupon` finds no
Unclaimed coupon (and the cooldown gates are clear), the Replenishment
Guard is invoked synchronously and the reservation is retried exactly
once against the replenished state: if the retry also fails the response
is the 404 payload with the fixed message and `shouldRetry = false` and
the state is exactly the once-replenished state (no further retry, no
tracker write); if the retry succeeds the response is built from the
retried reservation. -/
theorem claim_exhaustion_retry_once (rand : Nat → Nat) (req : Req) (s : Sys)
    (hip : findActiveTracker s.trackers req.addr .ip req.now = none)
    (hses : ∀ sid, req.sessionId = some sid →
      findActiveTracker s.trackers sid .session req.now = none)
    (hfail : (findOneAndUpdateClaim req.addr req.now
      (preState rand s).coupons).1 = none) :
    ((findOneAndUpdateClaim req.addr req.now
        ((checkAndReplenishCoupons rand (preState rand s)).2).coupons).1 = none →
      claimCoupon rand req s =
        (Resp.exhausted "No coupons available. Please try again later." false,
         mintCookie req,
         (checkAndReplenishCoupons rand (preState rand s)).2)) ∧
    (∀ c cs', findOneAndUpdateClaim req.addr req.now
        ((checkAndReplenishCoupons rand (preState rand s)).2).coupons
          = (some c, cs') →
      claimCoupon rand req s = (successResp c req.now, mintCookie req,
        successState req ((checkAndReplenishCoupons rand (preState rand s)).2)
          cs')) := by
  have hcc : claimCoupon rand req s = claimProceed rand req s := by
    cases hsid : req.sessionId with
    | none => simp [claimCoupon, hip, hsid]
    | some sid => simp [claimCoupon, hip, hsid, hses sid hsid]
  rw [hcc]
  rcases claimProceed_cases rand req s with
    ⟨c, cs', heq, hres⟩ | ⟨c, cs', h1, h2, hres⟩ | ⟨h1, h2, hres⟩
  · rw [heq] at hfail; simp at hfail
  · constructor
    · intro hnone; rw [h2] at hnone; simp at hnone
    · intro c0 cs0 heq0
      rw [h2] at heq0
      simp only [Prod.mk.injEq, Option.some.injEq] at heq0
      rw [hres, heq0.1, heq0.2]
  · constructor
    · intro _; exact hres
    · intro c0 cs0 heq0
      rw [heq0] at h2; simp at h2

/-- The empty-pool scenario with an always-colliding random stream:
replenishment generates 50 identical codes, the insert fails, and the
pool stays empty. -/
def exhaustSys : Sys := { coupons := [], trackers := [], rng := 0 }

/-- Request for the exhaustion scenario (no session cookie). -/
def exhaustReq : Req := { addr := "8.8.8.8", sessionId := none, now := 5 }

/-- Witness for `claim_exhaustion_retry_once`: with an empty pool and a
constant random stream both reservations fail and the 404 payload is
returned. -/
theorem claim_exhaustion_retry_once_witness :
    claimCoupon (fun _ => 0) exhaustReq exhaustSys =
      (Resp.exhausted "No coupons available. Please try again later." false,
       mintCookie exhaustReq,
       (checkAndReplenishCoupons (fun _ => 0)
         (preState (fun _ => 0) exhaustSys)).2) :=
  (claim_exhaustion_retry_once (fun _ => 0) exhaustReq exhaustSys
    (by decide)
    (fun sid h => by simp [exhaustReq] at h)
    (by decide)).1 (by decide)

/-!  ## C4 : what the atomic reservation stamps  -/

/-- An unclaimed coupon used by the session-stamp counterexample. -/
def sessionClaimCoupon : Coupon :=
  { code := "C1", sequenceNumber := 1, isActive := true,
    claimedBy := none, sessionId := none, claimedAt := none }

/-- State with one unclaimed coupon and no trackers. -/
def sessionClaimSys : Sys :=
  { coupons := [sessionClaimCoupon], trackers := [], rng := 0 }

/-- A request presenting a session token. -/
def sessionClaimReq : Req :=
  { addr := "9.9.9.9", sessionId := some "sess42", now := 777 }

/-- C4 counterexample: a successful claim by a caller presenting the
session token "sess42" reserves the coupon but never stamps
`claimedBySession` — the stored coupon's `sessionId` stays `none`. -/
theorem reservation_no_session_stamp_cex :
    sessionClaimReq.sessionId = some "sess42" ∧
    (claimCoupon (fun n => n) sessionClaimReq sessionClaimSys).1 =
      Resp.success "Coupon claimed successfully!" "C1" 1 777
        (777 + CLAIM_COOLDOWN) CLAIM_COOLDOWN "30s" ∧
    (claimCoupon (fun n => n) sessionClaimReq sessionClaimSys).2.2.coupons =
      [{ code := "C1", sequenceNumber := 1, isActive := false,
         claimedBy := some "9.9.9.9", sessionId := none,
         claimedAt := some 777 }] ∧
    (∀ c ∈ (claimCoupon (fun n => n) sessionClaimReq
        sessionClaimSys).2.2.coupons, ¬ c.sessionId = some "sess42") := by
  refine ⟨?_, ?_, ?_, ?_⟩ <;> decide

/-- C4 (amended): every successful reservation selects the Unclaimed
coupon with the lowest `sequenceNumber` and, in a single conditional
update, transitions it to Claimed stamping `claimedBy` with the caller's
address and `claimedAt` with `now` — but it never stamps the session
token: the updated document's `sessionId` is whatever it was before
(`none` for generated coupons), regardless of any session token. -/
theorem reservation_lowest_seq_stamps (addr : String) (now : Nat)
    (cs : List Coupon) (c' : Coupon) (cs' : List Coupon)
    (h : findOneAndUpdateClaim addr now cs = (some c', cs')) :
    c'.claimedBy = some addr ∧ c'.claimedAt = some now ∧
    c'.isActive = false ∧
    ∃ c l1 l2, cs = l1 ++ c :: l2 ∧ cs' = l1 ++ c' :: l2 ∧
      couponMatch c = true ∧
      (∀ x ∈ cs, couponMatch x = true → c.sequenceNumber ≤ x.sequenceNumber) ∧
      c'.sequenceNumber = c.sequenceNumber ∧ c'.code = c.code ∧
      c'.sessionId = c.sessionId := by
  obtain ⟨c, l1, l2, hsplit, hcm, hmin, hc', hcs'⟩ :=
    findOneAndUpdateClaim_some h
  subst hc'
  refine ⟨rfl, rfl, rfl, c, l1, l2, hsplit, hcs', hcm, hmin, rfl, rfl, rfl⟩

/-- Witness for `reservation_lowest_seq_stamps` on the one-coupon
state. -/
theorem reservation_lowest_seq_stamps_witness :
    (claimStamp "9.9.9.9" 777 sessionClaimCoupon).claimedBy =
      some "9.9.9.9" ∧
    (claimStamp "9.9.9.9" 777 sessionClaimCoupon).claimedAt = some 777 ∧
    (claimStamp "9.9.9.9" 777 sessionClaimCoupon).isActive = false ∧
    ∃ c l1 l2, sessionClaimSys.coupons = l1 ++ c :: l2 ∧
      [claimStamp "9.9.9.9" 777 sessionClaimCoupon] = l1 ++
        claimStamp "9.9.9.9" 777 sessionClaimCoupon :: l2 ∧
      couponMatch c = true ∧
      (∀ x ∈ sessionClaimSys.coupons, couponMatch x = true →
        c.sequenceNumber ≤ x.sequenceNumber) ∧
      (claimStamp "9.9.9.9" 777 sessionClaimCoupon).sequenceNumber =
        c.sequenceNumber ∧
      (claimStamp "9.9.9.9" 777 sessionClaimCoupon).code = c.code ∧
      (claimStamp "9.9.9.9" 777 sessionClaimCoupon).sessionId =
        c.sessionId :=
  reservation_lowest_seq_stamps "9.9.9.9" 777 sessionClaimSys.coupons
    (claimStamp "9.9.9.9" 777 sessionClaimCoupon)
    [claimStamp "9.9.9.9" 777 sessionClaimCoupon] (by decide)

/-!  ## C8 : the Replenishment Guard's batch  -/

theorem generateCoupons_cases (rand : Nat → Nat) (count : Nat) (s : Sys) :
    (((s.coupons ++ newBatch rand count s).map (fun c => c.code)).Nodup ∧
      generateCoupons rand count s =
        (true, { s with coupons := s.coupons ++ newBatch rand count s,
                        rng := s.rng + 8 * count })) ∨
    (¬ ((s.coupons ++ newBatch rand count s).map (fun c => c.code)).Nodup ∧
      generateCoupons rand count s =
        (false, { s with rng := s.rng + 8 * count })) := by
  by_cases h : ((s.coupons ++ newBatch rand count s).map (fun c => c.code)).Nodup
  · exact Or.inl ⟨h, by unfold generateCoupons; rw [if_pos h]⟩
  · exact Or.inr ⟨h, by unfold generateCoupons; rw [if_neg h]⟩

theorem newBatch_length (rand : Nat → Nat) (count : Nat) (s : Sys) :
    (newBatch rand count s).length = count := by
  simp [newBatch]

theorem newBatch_seqs (rand : Nat → Nat) (count : Nat) (s : Sys) :
    (newBatch rand count s).map (fun c => c.sequenceNumber) =
      (List.range count).map (fun i => getNextSequenceNumber s.coupons + i) := by
  simp [newBatch, List.map_map]

theorem generateCouponCode_shape (rand : Nat → Nat) (off : Nat) :
    (generateCouponCode rand off).length = 8 ∧
    ∀ ch ∈ (generateCouponCode rand off).data, ch ∈ chars := by
  constructor
  · simp [generateCouponCode, String.length]
  · intro ch hch
    simp only [generateCouponCode, String.mk, List.mem_map] at hch
    obtain ⟨i, _, hchi⟩ := hch
    have hlt : rand (off + i) % 36 < chars.length := by
      have h36 : chars.length = 36 := by decide
      rw [h36]
      exact Nat.mod_lt _ (by norm_num)
    rw [← hchi, List.getD_eq_getElem chars 'A' hlt]
    exact List.getElem_mem hlt

/-- C8: `checkAndReplenishCoupons` counts Unclaimed coupons and, exactly
when that count is below `MINIMUM_COUPONS` (20), generates a batch of
`REPLENISH_COUNT` (50) coupons whose sequence numbers form a contiguous
block starting at `getNextSequenceNumber` — one above the maximum
sequence number over ALL coupons, claimed or not, and `1` on an empty
collection — each bearing a fresh 8-character code over the
uppercase-alphanumeric alphabet, inserts them (when the insert does not
hit a code collision) and returns `true`; when the stock is at or above
the floor it returns `false` and leaves the state untouched. -/
theorem replenish_batch_spec (rand : Nat → Nat) (s : Sys) :
    (countActive s.coupons < MINIMUM_COUPONS →
      (generateCoupons rand REPLENISH_COUNT s).1 = true →
      checkAndReplenishCoupons rand s =
        (true, { s with coupons := s.coupons ++ newBatch rand REPLENISH_COUNT s,
                        rng := s.rng + 8 * REPLENISH_COUNT }) ∧
      (newBatch rand REPLENISH_COUNT s).length = REPLENISH_COUNT ∧
      (newBatch rand REPLENISH_COUNT s).map (fun c => c.sequenceNumber) =
        (List.range REPLENISH_COUNT).map
          (fun i => getNextSequenceNumber s.coupons + i) ∧
      getNextSequenceNumber s.coupons = maxSeq s.coupons + 1 ∧
      (∀ c ∈ s.coupons, c.sequenceNumber ≤ maxSeq s.coupons) ∧
      (s.coupons = [] → getNextSequenceNumber s.coupons = 1) ∧
      (∀ c ∈ newBatch rand REPLENISH_COUNT s, c.isActive = true ∧
        c.claimedBy = none ∧ c.code.length = 8 ∧
        ∀ ch ∈ c.code.data, ch ∈ chars)) ∧
    (¬ countActive s.coupons < MINIMUM_COUPONS →
      checkAndReplenishCoupons rand s = (false, s)) := by
  constructor
  · intro hlow hins
    have hstate : generateCoupons rand REPLENISH_COUNT s =
        (true, { s with coupons := s.coupons ++ newBatch rand REPLENISH_COUNT s,
                        rng := s.rng + 8 * REPLENISH_COUNT }) := by
      rcases generateCoupons_cases rand REPLENISH_COUNT s with ⟨_, h⟩ | ⟨_, h⟩
      · exact h
      · rw [h] at hins; simp at hins
    refine ⟨?_, newBatch_length rand REPLENISH_COUNT s,
      newBatch_seqs rand REPLENISH_COUNT s, rfl, maxSeq_ge, fun h => by
        rw [h]; rfl, fun c hc => ?_⟩
    · simp only [checkAndReplenishCoupons, if_pos hlow, hstate]
    · simp only [newBatch, List.mem_map] at hc
      obtain ⟨i, _, hci⟩ := hc
      obtain ⟨hlen, hchars⟩ := generateCouponCode_shape rand (s.rng + 8 * i)
      exact ⟨by rw [← hci], by rw [← hci], by rw [← hci]; exact hlen,
        by rw [← hci]; exact hchars⟩
  · intro hhigh
    simp [checkAndReplenishCoupons, hhigh]

/-- Witness for `replenish_batch_spec`: the empty collection with an
injective-enough random stream (each batch code sampled from a distinct
character) is below the floor and the insert succeeds. -/
theorem replenish_batch_spec_witness :
    checkAndReplenishCoupons (fun n => if n % 8 == 0 then n / 8 % 36 else n / 8 / 36)
        { coupons := [], trackers := [], rng := 0 } =
      (true, { coupons := newBatch (fun n => if n % 8 == 0 then n / 8 % 36 else n / 8 / 36) REPLENISH_COUNT
                 { coupons := [], trackers := [], rng := 0 },
               trackers := [], rng := 8 * REPLENISH_COUNT }) :=
  by
    have h := ((replenish_batch_spec (fun n => if n % 8 == 0 then n / 8 % 36 else n / 8 / 36)
      { coupons := [], trackers := [], rng := 0 }).1
      (by decide) (by decide)).1
    simpa using h

/-!  ## Replenishment touches no trackers  -/

theorem generateCoupons_trackers (rand : Nat → Nat) (count : Nat) (s : Sys) :
    ((generateCoupons rand count s).2).trackers = s.trackers := by
  rcases generateCoupons_cases rand count s with ⟨_, h⟩ | ⟨_, h⟩ <;> rw [h]

theorem checkAndReplenish_trackers (rand : Nat → Nat) (s : Sys) :
    ((checkAndReplenishCoupons rand s).2).trackers = s.trackers := by
  unfold checkAndReplenishCoupons
  split
  · exact generateCoupons_trackers rand REPLENISH_COUNT s
  · rfl

theorem preState_trackers (rand : Nat → Nat) (s : Sys) :
    (preState rand s).trackers = s.trackers := by
  unfold preState
  split
  · exact checkAndReplenish_trackers rand s
  · rfl

/-!  ## C5 : serialized traces hand out strictly increasing coupons  -/

/-- Well-formedness enforced by the store's unique indexes on
`sequenceNumber` and `code`. -/
def wf (s : Sys) : Prop :=
  (s.coupons.map (fun c => c.sequenceNumber)).Nodup ∧
  (s.coupons.map (fun c => c.code)).Nodup

/-- The Unclaimed pool. -/
def unclaimedCoupons (s : Sys) : List Coupon :=
  s.coupons.filter couponMatch

/-- A coupon with this sequence number and code is in the collection. -/
def hasCoupon (s : Sys) (n : Nat) (code : String) : Prop :=
  ∃ c ∈ s.coupons, c.sequenceNumber = n ∧ c.code = code

/-- (sequenceNumber, code) pairs of the successful responses. -/
def successPairs (rs : List Resp) : List (Nat × String) :=
  rs.filterMap (fun r =>
    match r with
    | Resp.success _ code n _ _ _ _ => some (n, code)
    | _ => none)

theorem successSeqs_eq_pairs (rs : List Resp) :
    successSeqs rs = (successPairs rs).map Prod.fst := by
  induction rs with
  | nil => rfl
  | cons r rest ih =>
    cases r <;> simp [successSeqs, successPairs, List.filterMap_cons] at ih ⊢ <;>
      exact ih

theorem successCodes_eq_pairs (rs : List Resp) :
    successCodes rs = (successPairs rs).map Prod.snd := by
  induction rs with
  | nil => rfl
  | cons r rest ih =>
    cases r <;> simp [successCodes, successPairs, List.filterMap_cons] at ih ⊢ <;>
      exact ih

/-- The trace invariant: the store is well-formed, every pair already
handed out is still present in the collection, the handed-out sequence
numbers are strictly increasing, and every Unclaimed coupon's sequence
number strictly exceeds the last handed-out one. -/
def Inv (R : List (Nat × String)) (s : Sys) : Prop :=
  wf s ∧
  (∀ p ∈ R, hasCoupon s p.1 p.2) ∧
  List.Chain' (fun a b => a < b) (R.map Prod.fst) ∧
  (∀ p, R.getLast? = some p →
    ∀ c ∈ unclaimedCoupons s, p.1 < c.sequenceNumber)

theorem maxSeq_cons (c : Coupon) (cs : List Coupon) :
    maxSeq (c :: cs) = Nat.max c.sequenceNumber (maxSeq cs) := rfl

theorem maxSeq_le_append (l1 l2 : List Coupon) :
    maxSeq l1 ≤ maxSeq (l1 ++ l2) := by
  induction l1 with
  | nil => exact Nat.zero_le _
  | cons c cs ih =>
    rw [List.cons_append, maxSeq_cons, maxSeq_cons]
    exact max_le_max (le_refl _) ih

/-- `s'` only appends coupons whose sequence numbers exceed every
existing one. -/
def extendsOnly (s s' : Sys) : Prop :=
  ∃ ext, s'.coupons = s.coupons ++ ext ∧
    ∀ c ∈ ext, maxSeq s.coupons < c.sequenceNumber

theorem extendsOnly_rfl (s : Sys) : extendsOnly s s :=
  ⟨[], by simp, by simp⟩

theorem extendsOnly_trans {s1 s2 s3 : Sys} (h12 : extendsOnly s1 s2)
    (h23 : extendsOnly s2 s3) : extendsOnly s1 s3 := by
  obtain ⟨e1, he1, hb1⟩ := h12
  obtain ⟨e2, he2, hb2⟩ := h23
  refine ⟨e1 ++ e2, by rw [he2, he1, List.append_assoc], ?_⟩
  intro c hc
  rcases List.mem_append.mp hc with h | h
  · exact hb1 c h
  · have := hb2 c h
    have hmono : maxSeq s1.coupons ≤ maxSeq s2.coupons := by
      rw [he1]; exact maxSeq_le_append _ _
    omega

theorem generateCoupons_extends (rand : Nat → Nat) (count : Nat) (s : Sys) :
    extendsOnly s ((generateCoupons rand count s).2) ∧
    (wf s → wf ((generateCoupons rand count s).2)) := by
  rcases generateCoupons_cases rand count s with ⟨hnd, h⟩ | ⟨_, h⟩
  · rw [h]
    have hbatch : ∀ c ∈ newBatch rand count s,
        maxSeq s.coupons < c.sequenceNumber := by
      intro c hc
      simp only [newBatch, List.mem_map, List.mem_range] at hc
      obtain ⟨i, _, hci⟩ := hc
      rw [← hci]
      simp only [getNextSequenceNumber]
      omega
    refine ⟨⟨newBatch rand count s, rfl, hbatch⟩, fun hwf => ⟨?_, ?_⟩⟩
    · rw [List.map_append, List.nodup_append]
      refine ⟨hwf.1, ?_, ?_⟩
      · rw [newBatch_seqs]
        exact List.Nodup.map (fun i j hij => by simpa using hij)
          (List.nodup_range count)
      · intro x hx hy
        obtain ⟨cx, hcx, hcxe⟩ := List.mem_map.mp hx
        obtain ⟨cy, hcy, hcye⟩ := List.mem_map.mp hy
        have h1 : x ≤ maxSeq s.coupons := hcxe ▸ maxSeq_ge cx hcx
        have h2 : maxSeq s.coupons < x := hcye ▸ hbatch cy hcy
        omega
    · exact hnd
  · rw [h]
    exact ⟨extendsOnly_rfl _, id⟩

theorem checkAndReplenish_extends (rand : Nat → Nat) (s : Sys) :
    extendsOnly s ((checkAndReplenishCoupons rand s).2) ∧
    (wf s → wf ((checkAndReplenishCoupons rand s).2)) := by
  unfold checkAndReplenishCoupons
  split
  · exact generateCoupons_extends rand REPLENISH_COUNT s
  · exact ⟨extendsOnly_rfl _, id⟩

theorem preState_extends (rand : Nat → Nat) (s : Sys) :
    extendsOnly s (preState rand s) ∧
    (wf s → wf (preState rand s)) := by
  unfold preState
  split
  · exact checkAndReplenish_extends rand s
  · exact ⟨extendsOnly_rfl _, id⟩

/-- The invariant survives pure replenishment. -/
theorem Inv_extends {R : List (Nat × String)} {s s' : Sys}
    (hInv : Inv R s) (hext : extendsOnly s s') (hwf : wf s') :
    Inv R s' := by
  obtain ⟨_, hmem, hchain, hbound⟩ := hInv
  obtain ⟨ext, hcs, hb⟩ := hext
  refine ⟨hwf, ?_, hchain, ?_⟩
  · intro p hp
    obtain ⟨c, hc, hcp⟩ := hmem p hp
    exact ⟨c, by rw [hcs]; exact List.mem_append_left _ hc, hcp⟩
  · intro p hp c hc
    simp only [unclaimedCoupons, hcs, List.filter_append,
      List.mem_append] at hc
    rcases hc with hc | hc
    · exact hbound p hp c hc
    · have hcext : c ∈ ext := List.mem_of_mem_filter hc
      have h1 := hb c hcext
      have hpin : p ∈ R := List.mem_of_mem_getLast? hp
      obtain ⟨y, hy, hyp, _⟩ := hmem p hpin
      have h2 : p.1 ≤ maxSeq s.coupons := hyp ▸ maxSeq_ge y hy
      omega

theorem hasCoupon_iff (s : Sys) (n : Nat) (code : String) :
    hasCoupon s n code ↔
      (n, code) ∈ s.coupons.map (fun c => (c.sequenceNumber, c.code)) := by
  constructor
  · rintro ⟨c, hc, h1, h2⟩
    exact List.mem_map.mpr ⟨c, hc, by rw [h1, h2]⟩
  · intro h
    obtain ⟨c, hc, hce⟩ := List.mem_map.mp h
    have h1 : c.sequenceNumber = n := congrArg Prod.fst hce
    have h2 : c.code = code := congrArg Prod.snd hce
    exact ⟨c, hc, h1, h2⟩

theorem reservation_step {addr : String} {now : Nat} {cs : List Coupon}
    {c' : Coupon} {cs' : List Coupon}
    (hnd : (cs.map (fun c => c.sequenceNumber)).Nodup)
    (h : findOneAndUpdateClaim addr now cs = (some c', cs')) :
    cs'.map (fun c => (c.sequenceNumber, c.code)) =
      cs.map (fun c => (c.sequenceNumber, c.code)) ∧
    c' ∈ cs' ∧
    (∃ c ∈ cs, couponMatch c = true ∧
      c'.sequenceNumber = c.sequenceNumber ∧ c'.code = c.code) ∧
    (∀ x ∈ cs', couponMatch x = true →
      c'.sequenceNumber < x.sequenceNumber) := by
  obtain ⟨c, l1, l2, hsplit, hcm, hmin, hc', hcs'⟩ :=
    findOneAndUpdateClaim_some h
  have hseq : c'.sequenceNumber = c.sequenceNumber := by rw [hc']; rfl
  have hcode : c'.code = c.code := by rw [hc']; rfl
  refine ⟨?_, ?_, ⟨c, by rw [hsplit]; simp, hcm, hseq, hcode⟩, ?_⟩
  · rw [hsplit, hcs']
    simp [claimStamp]
  · rw [hcs', hc']
    simp
  · intro x hx hmx
    rw [hcs'] at hx
    rcases List.mem_append.mp hx with hx1 | hx2
    · have hxcs : x ∈ cs := by rw [hsplit]; exact List.mem_append_left _ hx1
      have hle := hmin x hxcs hmx
      have hne : x.sequenceNumber ≠ c.sequenceNumber := by
        rw [hsplit] at hnd
        simp only [List.map_append, List.map_cons] at hnd
        have hndisj := (List.nodup_append.mp hnd).2.2
        intro heq
        exact hndisj (List.mem_map_of_mem _ hx1)
          (by rw [heq]; exact List.mem_cons_self _ _)
      omega
    · rcases List.mem_cons.mp hx2 with hxc | hx2'
      · exfalso
        rw [hxc] at hmx
        simp [couponMatch, claimStamp] at hmx
      · have hxcs : x ∈ cs := by
          rw [hsplit]
          exact List.mem_append_right _ (List.mem_cons_of_mem _ hx2')
        have hle := hmin x hxcs hmx
        have hne : x.sequenceNumber ≠ c.sequenceNumber := by
          rw [hsplit] at hnd
          simp only [List.map_append, List.map_cons] at hnd
          have hcons := ((List.nodup_append.mp hnd).2.1)
          have hnotin := (List.nodup_cons.mp hcons).1
          intro heq
          exact hnotin (heq ▸ List.mem_map_of_mem _ hx2')
        omega

theorem success_step {req : Req} {base : Sys} {c : Coupon}
    {cs' : List Coupon} {R : List (Nat × String)} (hInv : Inv R base)
    (h : findOneAndUpdateClaim req.addr req.now base.coupons = (some c, cs')) :
    Inv (R ++ [(c.sequenceNumber, c.code)]) (successState req base cs') := by
  obtain ⟨hwf, hmem, hchain, hbound⟩ := hInv
  obtain ⟨hpairs, hcmem, ⟨c0, hc0mem, hc0m, hseq0, hcode0⟩, hstrict⟩ :=
    reservation_step hwf.1 h
  have hseqs : cs'.map (fun c => c.sequenceNumber) =
      base.coupons.map (fun c => c.sequenceNumber) := by
    have := congrArg (List.map Prod.fst) hpairs
    simpa [List.map_map] using this
  have hcodes : cs'.map (fun c => c.code) =
      base.coupons.map (fun c => c.code) := by
    have := congrArg (List.map Prod.snd) hpairs
    simpa [List.map_map] using this
  have hwf' : wf (successState req base cs') := by
    constructor
    · show (cs'.map (fun c => c.sequenceNumber)).Nodup
      rw [hseqs]; exact hwf.1
    · show (cs'.map (fun c => c.code)).Nodup
      rw [hcodes]; exact hwf.2
  refine ⟨hwf', ?_, ?_, ?_⟩
  · intro p hp
    rcases List.mem_append.mp hp with hp1 | hp2
    · have := hmem p hp1
      rw [hasCoupon_iff] at this ⊢
      show (p.1, p.2) ∈ cs'.map (fun c => (c.sequenceNumber, c.code))
      rw [hpairs]
      exact this
    · have hpe : p = (c.sequenceNumber, c.code) := by
        simpa using hp2
      exact ⟨c, hcmem, by rw [hpe], by rw [hpe]⟩
  · rw [List.map_append]
    rw [List.chain'_append]
    refine ⟨hchain, by simp, ?_⟩
    intro x hx y hy
    simp only [List.map_cons, List.map_nil, List.head?_cons,
      Option.mem_def, Option.some.injEq] at hy
    rw [List.getLast?_map] at hx
    simp only [Option.mem_def, Option.map_eq_some'] at hx
    obtain ⟨p, hp, hpx⟩ := hx
    have hlt := hbound p hp c0
      (List.mem_filter.mpr ⟨hc0mem, hc0m⟩)
    omega
  · intro p hp x hx
    rw [List.getLast?_concat] at hp
    cases hp
    have hx' : x ∈ cs'.filter couponMatch := hx
    have hxm := List.mem_filter.mp hx'
    exact hstrict x hxm.1 hxm.2

theorem claimProceed_step (rand : Nat → Nat) (req : Req) (s : Sys)
    (R : List (Nat × String)) (hInv : Inv R s) :
    Inv (R ++ successPairs [(claimProceed rand req s).1])
      ((claimProceed rand req s).2.2) := by
  have hpre := preState_extends rand s
  have hInv1 : Inv R (preState rand s) :=
    Inv_extends hInv hpre.1 (hpre.2 hInv.1)
  rcases claimProceed_cases rand req s with
    ⟨c, cs', hres, heq⟩ | ⟨c, cs', h1, hres, heq⟩ | ⟨h1, h2, heq⟩
  · rw [heq]
    have := success_step hInv1 hres
    simpa [successPairs, successResp] using this
  · have hrep := checkAndReplenish_extends rand (preState rand s)
    have hInv2 : Inv R ((checkAndReplenishCoupons rand (preState rand s)).2) :=
      Inv_extends hInv1 hrep.1 (hrep.2 hInv1.1)
    rw [heq]
    have := success_step hInv2 hres
    simpa [successPairs, successResp] using this
  · have hrep := checkAndReplenish_extends rand (preState rand s)
    have hInv2 : Inv R ((checkAndReplenishCoupons rand (preState rand s)).2) :=
      Inv_extends hInv1 hrep.1 (hrep.2 hInv1.1)
    rw [heq]
    simpa [successPairs] using hInv2

theorem claim_step (rand : Nat → Nat) (req : Req) (s : Sys)
    (R : List (Nat × String)) (hInv : Inv R s) :
    Inv (R ++ successPairs [(claimCoupon rand req s).1])
      ((claimCoupon rand req s).2.2) := by
  cases hip : findActiveTracker s.trackers req.addr .ip req.now with
  | some t =>
    simp only [claimCoupon, hip]
    simpa [successPairs, cooldownResp] using hInv
  | none =>
    cases hsid : req.sessionId with
    | some sid =>
      cases hses : findActiveTracker s.trackers sid .session req.now with
      | some t =>
        simp only [claimCoupon, hip, hsid, hses]
        simpa [successPairs, cooldownResp] using hInv
      | none =>
        simp only [claimCoupon, hip, hsid, hses]
        exact claimProceed_step rand req s R hInv
    | none =>
      simp only [claimCoupon, hip, hsid]
      exact claimProceed_step rand req s R hInv

theorem successPairs_cons (r : Resp) (rs : List Resp) :
    successPairs (r :: rs) = successPairs [r] ++ successPairs rs := by
  cases r <;> simp [successPairs, List.filterMap_cons]

theorem runClaims_inv (rand : Nat → Nat) :
    ∀ (reqs : List Req) (R : List (Nat × String)) (s : Sys), Inv R s →
      Inv (R ++ successPairs (runClaims rand reqs s).1)
        ((runClaims rand reqs s).2) := by
  intro reqs
  induction reqs with
  | nil => intro R s h; simpa [runClaims, successPairs] using h
  | cons r rs ih =>
    intro R s h
    have hstep := claim_step rand r s R h
    have hrest := ih (R ++ successPairs [(claimCoupon rand r s).1])
      ((claimCoupon rand r s).2.2) hstep
    simp only [runClaims]
    rw [successPairs_cons, ← List.append_assoc]
    exact hrest

/-- C5: starting from any well-formed store, running any serialized
sequence of claim requests yields successful responses whose
`sequenceNumber`s are strictly increasing in call-completion order, and
no two successful responses carry the same coupon code. -/
theorem claim_trace_ordered (rand : Nat → Nat) (reqs : List Req) (s : Sys)
    (hwf : wf s) :
    List.Chain' (fun a b => a < b)
      (successSeqs (runClaims rand reqs s).1) ∧
    (successCodes (runClaims rand reqs s).1).Nodup := by
  have hInv0 : Inv [] s := by
    refine ⟨hwf, by simp, by simp, by simp⟩
  have h := runClaims_inv rand reqs [] s hInv0
  rw [List.nil_append] at h
  obtain ⟨hwfF, hmem, hchain, _⟩ := h
  constructor
  · rw [successSeqs_eq_pairs]
    exact hchain
  · rw [successCodes_eq_pairs]
    have hpair : (successPairs (runClaims rand reqs s).1).Pairwise
        (fun p q => p.1 < q.1) := by
      have := (List.chain'_iff_pairwise).mp hchain
      exact (List.pairwise_map).mp this
    have hne : (successPairs (runClaims rand reqs s).1).Pairwise
        (fun p q => p.2 ≠ q.2) := by
      refine hpair.imp_of_mem ?_
      intro p q hp hq hlt heq
      obtain ⟨cp, hcpm, hcp1, hcp2⟩ := hmem p hp
      obtain ⟨cq, hcqm, hcq1, hcq2⟩ := hmem q hq
      have hcode : cp.code = cq.code := by rw [hcp2, hcq2, heq]
      have hinj := List.inj_on_of_nodup_map hwfF.2 hcpm hcqm hcode
      rw [hinj] at hcp1
      omega
    have : ((successPairs (runClaims rand reqs s).1).map Prod.snd).Pairwise
        (fun a b => a ≠ b) := by
      rw [List.pairwise_map]
      exact hne
    exact this

/-- Two coupons and two requests from distinct addresses for the C5
witness. -/
def traceSys : Sys :=
  { coupons :=
      [{ code := "B2", sequenceNumber := 2, isActive := true,
         claimedBy := none, sessionId := none, claimedAt := none },
       { code := "A1", sequenceNumber := 1, isActive := true,
         claimedBy := none, sessionId := none, claimedAt := none }],
    trackers := [], rng := 0 }

/-- Requests of the C5 witness trace. -/
def traceReqs : List Req :=
  [{ addr := "1.1.1.1", sessionId := none, now := 10 },
   { addr := "2.2.2.2", sessionId := none, now := 20 }]

/-- Witness for `claim_trace_ordered`: two serialized claims hand out
sequence numbers 1 then 2 with distinct codes. -/
theorem claim_trace_ordered_witness :
    List.Chain' (fun a b => a < b)
      (successSeqs (runClaims (fun n => n) traceReqs traceSys).1) ∧
    (successCodes (runClaims (fun n => n) traceReqs traceSys).1).Nodup :=
  claim_trace_ordered (fun n => n) traceReqs traceSys
    (by constructor <;> decide)

/-!  ## The ClaimTracker schema layer (models/ClaimTracker.js)

The controller works with `identifier` / `type` / `nextClaimTime`
fields, but `claimTrackerSchema` declares only `ipAddress`, `sessionId`
(both sparse), `lastClaimAt` and `claimCount`, installs a `pre('save')`
hook requiring at least one of `ipAddress` / `sessionId`, and nothing in
the model disables Mongoose strict mode.  A create therefore first loses
every undeclared path and is then rejected by the hook.  -/

/-- The document shape `updateTracker` passes to `ClaimTracker.create`
(couponController.js lines 40–46). -/
structure TrackerCreateDoc where
  identifier : String
  type : TrackerType
  lastClaimAt : Nat
  nextClaimTime : Nat
  claimCount : Nat
deriving DecidableEq, Repr

/-- A document as `claimTrackerSchema` can store it: only `ipAddress`,
`sessionId`, `lastClaimAt`, `claimCount` exist; no `identifier`, `type`
or `nextClaimTime` path is declared. -/
structure StoredTracker where
  ipAddress : Option String
  sessionId : Option String
  lastClaimAt : Option Nat
  claimCount : Nat
deriving DecidableEq, Repr

/-- Mongoose strict mode (the default) drops every path of the create
document that the schema does not declare.  The controller's document
carries none of `ipAddress` / `sessionId`, so only `lastClaimAt` and
`claimCount` survive; `identifier`, `type` and `nextClaimTime` are
discarded. -/
def stripToSchema (d : TrackerCreateDoc) : StoredTracker :=
  { ipAddress := none, sessionId := none,
    lastClaimAt := some d.lastClaimAt, claimCount := d.claimCount }

/-- The schema's `pre('save')` hook: reject a document with neither
`ipAddress` nor `sessionId`. -/
def claimTrackerPreSave (t : StoredTracker) : Except String StoredTracker :=
  if t.ipAddress = none ∧ t.sessionId = none then
    Except.error "Either ipAddress or sessionId must be provided"
  else Except.ok t

/-- `ClaimTracker.create` applied to the controller's document:
strict-mode stripping followed by the pre-save validation. -/
def claimTrackerCreate (d : TrackerCreateDoc) : Except String StoredTracker :=
  claimTrackerPreSave (stripToSchema d)

/-- The exact document `updateTracker` builds for `ClaimTracker.create`:
`identifier`, `type`, `lastClaimAt = now`,
`nextClaimTime = now + CLAIM_COOLDOWN`, `claimCount = 1`. -/
def controllerCreateDoc (id : String) (k : TrackerType) (now : Nat) :
    TrackerCreateDoc :=
  { identifier := id, type := k, lastClaimAt := now,
    nextClaimTime := now + CLAIM_COOLDOWN, claimCount := 1 }

/-- C2: the tracker upsert the Arbiter attempts can never persist.  The
`ClaimTracker` schema declares neither `identifier` nor `type` nor
`nextClaimTime`; strict mode strips them from the controller's create
document, the stripped document carries neither `ipAddress` nor
`sessionId`, and the schema's pre-save hook therefore rejects every
create that `updateTracker` issues — for every identity, kind and time.
So no tracker record written by the application persists, and future
eligibility checks never find one: the claimed upsert-and-persist
behaviour is the controller's (and the spec's) intent, which the model
file contradicts. -/
theorem tracker_upsert_never_persists :
    (∀ (id : String) (k : TrackerType) (now : Nat),
      claimTrackerCreate (controllerCreateDoc id k now) =
        Except.error "Either ipAddress or sessionId must be provided") ∧
    stripToSchema (controllerCreateDoc "9.9.9.9" TrackerType.ip 777) =
      { ipAddress := none, sessionId := none, lastClaimAt := some 777,
        claimCount := 1 } := by
  constructor
  · intro id k now
    simp [claimTrackerCreate, claimTrackerPreSave, stripToSchema,
      controllerCreateDoc]
  · rfl

/-- A request with no session cookie (C9 scenario). -/
def noSessReq : Req := { addr := "7.7.7.7", sessionId := none, now := 50 }

/-- C9: when a caller presents no session token, the proceed path mints
`Date.now().toString()` and attaches it to the response as a cookie —
but no tracker of either kind can be written during that request: both
the address-kind and the session-kind create documents are rejected by
the `ClaimTracker` schema, so no cooldown at all is recorded (the
controller's catch converts the rejection into a 500 after the coupon
was already reserved), and the minted token gates nothing. -/
theorem minted_token_no_tracker_persisted :
    mintCookie noSessReq = some (toString noSessReq.now) ∧
    (∀ (id : String) (now : Nat),
      claimTrackerCreate (controllerCreateDoc id TrackerType.ip now) =
        Except.error "Either ipAddress or sessionId must be provided") ∧
    (∀ (sid : String) (now : Nat),
      claimTrackerCreate (controllerCreateDoc sid TrackerType.session now) =
        Except.error "Either ipAddress or sessionId must be provided") := by
  refine ⟨rfl, ?_, ?_⟩ <;> intro x now <;>
    simp [claimTrackerCreate, claimTrackerPreSave, stripToSchema,
      controllerCreateDoc]

end SalesStudio
